import Mathlib

/-!
Verification of the core utilities of the seqspec repository
(`seqspec/utils.py`): the coordinate projector `get_cuts`, the allow-list
resolver `read_list` with its tokenizer `yield_onlist_contents`, the read
writer `write_read`, the spec-loading parent-id fix-up in
`load_spec_stream`, and the existence probe `file_exists`.

The Python code is shallowly embedded: strings are Lean `String`s, text
streams are lists of logical lines, the runtime distinction between `str`
and `bytes` values is an explicit tag, stateful appends become pure list
concatenation, and raised exceptions become `Except` errors.  Network and
filesystem effects are modelled by an explicit `World` record mapping
names to stored resources, and the I/O actions a call performs are
returned as an explicit trace.
-/

namespace Seqspec

/-- Modelled from the spec: the `Region` node of the region tree
(`seqspec/Region.py` is not under src/).  Only the attributes the verified
utilities touch are kept: `region_id`, `max_len`, the derived back-pointer
`parent_id`, and the ordered child list `regions`. -/
inductive Region where
  | node (region_id : String) (max_len : Nat) (parent_id : Option String)
         (regions : List Region)

/-- The `region_id` attribute of a region. -/
def Region.region_id : Region → String
  | .node i _ _ _ => i

/-- The `max_len` attribute of a region. -/
def Region.max_len : Region → Nat
  | .node _ m _ _ => m

/-- The `parent_id` attribute of a region. -/
def Region.parent_id : Region → Option String
  | .node _ _ p _ => p

/-- The `regions` (children) attribute of a region. -/
def Region.regions : Region → List Region
  | .node _ _ _ rs => rs

/-- The loop body of `get_cuts`: `prev = 0; for r in regions: nxt = prev +
r.max_len; cuts.append((prev, nxt)); prev = nxt`, with the mutated
accumulator list passed explicitly. -/
def getCutsLoop : List Region → Nat → List (Nat × Nat) → List (Nat × Nat)
  | [], _, cuts => cuts
  | r :: rs, prev, cuts =>
      getCutsLoop rs (prev + r.max_len) (cuts ++ [(prev, prev + r.max_len)])

/-- Embedding of `get_cuts(regions, cuts=[])` from `seqspec/utils.py`.
The Python guard `if not cuts: cuts = []` replaces an empty (or absent)
accumulator by a fresh empty list; the cursor `prev` always starts at 0.
The default-argument call `get_cuts(regions)` is `get_cuts regions []`. -/
def get_cuts (regions : List Region) (cuts : List (Nat × Nat)) :
    List (Nat × Nat) :=
  let cuts := if cuts.isEmpty then [] else cuts
  getCutsLoop regions 0 cuts

/-- The interval list the spec's formula describes: the i-th interval is
(sum of the first i max lengths, sum of the first i+1 max lengths). -/
def cutsSpec (regions : List Region) : List (Nat × Nat) :=
  (List.range regions.length).map fun i =>
    (((regions.take i).map Region.max_len).sum,
     ((regions.take (i + 1)).map Region.max_len).sum)

theorem cutsSpec_cons (r : Region) (rs : List Region) :
    cutsSpec (r :: rs) =
      (0, r.max_len) ::
        (cutsSpec rs).map (fun c => (r.max_len + c.1, r.max_len + c.2)) := by
  simp only [cutsSpec, List.length_cons, List.range_succ_eq_map,
    List.map_cons, List.map_map]
  congr 1

theorem getCutsLoop_eq (rs : List Region) (prev : Nat)
    (acc : List (Nat × Nat)) :
    getCutsLoop rs prev acc =
      acc ++ (cutsSpec rs).map (fun c => (prev + c.1, prev + c.2)) := by
  induction rs generalizing prev acc with
  | nil => simp [getCutsLoop, cutsSpec]
  | cons r rs ih =>
      rw [getCutsLoop, ih, cutsSpec_cons]
      simp [List.map_map, Function.comp, Nat.add_assoc]

/-- C1: `get_cuts` called with no accumulator returns exactly the
partial-sum intervals of the spec's formula, in input order, one per
region; for an empty input it returns the empty list, and a region with
`max_len = 0` yields a zero-width interval that does not advance the
cursor (both are instances of the formula). -/
theorem get_cuts_spec (regions : List Region) :
    get_cuts regions [] = cutsSpec regions := by
  rw [get_cuts]
  simp only [List.isEmpty_nil, if_pos]
  rw [getCutsLoop_eq]
  simp

theorem get_cuts_acc (rs : List Region) (acc : List (Nat × Nat)) :
    get_cuts rs acc = acc ++ get_cuts rs [] := by
  rw [get_cuts, get_cuts, getCutsLoop_eq, getCutsLoop_eq]
  cases acc <;> simp

/-- C2 counterexample: with max lengths 1, 2, 3, projecting [r1, r2] and
then [r3] with the accumulator yields [(0,1), (1,3), (0,3)], while the
one-shot projection of [r1, r2, r3] yields [(0,1), (1,3), (3,6)]. -/
theorem get_cuts_compose_cex :
    get_cuts [Region.node "r3" 3 none []]
        (get_cuts [Region.node "r1" 1 none [], Region.node "r2" 2 none []] []) ≠
      get_cuts [Region.node "r1" 1 none [], Region.node "r2" 2 none [],
        Region.node "r3" 3 none []] [] := by
  decide

/-- C2 amended: `get_cuts` called with an accumulator restarts the cursor
at 0 rather than continuing from the accumulated end, so projecting
[r1, r2] and then [r3] with the accumulator equals the first projection
followed by an independent projection of [r3] from offset 0 (and equals
the one-shot projection of [r1, r2, r3] only when r1 and r2 have total
max length 0). -/
theorem get_cuts_accumulator_restarts (r1 r2 r3 : Region) :
    get_cuts [r3] (get_cuts [r1, r2] []) =
      get_cuts [r1, r2] [] ++ get_cuts [r3] [] :=
  get_cuts_acc [r3] (get_cuts [r1, r2] [])

/-! ## The allow-list tokenizer and resolver -/

/-- Failure of a network primitive: `requests.ConnectionError`, or any
other exception raised by the `requests` call. -/
inductive NetFail where
  | connError
  | otherError
deriving DecidableEq

/-- Errors the embedded utilities can raise: `IndexError` from `[0]` on an
empty token list, `ValueError` for an unsupported onlist location,
a propagated `requests` exception, `HTTPError` from `raise_for_status`,
`FileNotFoundError` from `open`, and a decode failure when a stored
container does not match the opening mode. -/
inductive Err where
  | indexError
  | config (location : String)
  | transport (e : NetFail)
  | httpStatus (status : Nat)
  | fileNotFound (filename : String)
  | decodeError
deriving DecidableEq

/-- The message of the `ValueError` raised by `read_list`, built as Python
does with `"Unsupported location {}. Expected remote or local".format(...)`;
other errors keep their library messages. -/
def errMessage : Err → String
  | .config loc => "Unsupported location " ++ loc ++ ". Expected remote or local"
  | .indexError => "list index out of range"
  | .transport _ => "connection error"
  | .httpStatus s => "HTTP error " ++ toString s
  | .fileNotFound f => "No such file or directory: " ++ f
  | .decodeError => "decode error"

/-- Python whitespace for `str.strip()` and `str.split()` with no
arguments: space, tab, newline, carriage return, vertical tab, form
feed. -/
def isPySpace (c : Char) : Bool :=
  c == ' ' || c == '\t' || c == '\n' || c == '\r' || c == '\x0b' || c == '\x0c'

/-- Embedding of Python `str.strip()`: drop leading and trailing
whitespace characters. -/
def pyStrip (s : String) : String :=
  String.mk (((s.data.dropWhile isPySpace).reverse.dropWhile isPySpace).reverse)

/-- Worker for `pyTokens`: scan the characters, accumulating the current
token in reverse, emitting it at each whitespace run boundary. -/
def pyTokensAux : List Char → List Char → List String
  | [], [] => []
  | [], cur => [String.mk cur.reverse]
  | c :: cs, cur =>
      if isPySpace c then
        match cur with
        | [] => pyTokensAux cs []
        | _ => String.mk cur.reverse :: pyTokensAux cs []
      else pyTokensAux cs (c :: cur)

/-- Embedding of Python `str.split()` with no arguments: split on runs of
whitespace, discarding empty fields. -/
def pyTokens (s : String) : List String :=
  pyTokensAux s.data []

/-- Embedding of `yield_onlist_contents(stream)` as consumed by `list(...)`
in `read_list`: for each line, `line.strip().split()[0]`.  A line whose
stripped form has no token makes the subscript `[0]` raise `IndexError`,
which aborts the whole traversal. -/
def yield_onlist_contents : List String → Except Err (List String)
  | [] => .ok []
  | line :: rest =>
      match (pyTokens (pyStrip line)).head? with
      | none => .error .indexError
      | some tok =>
          match yield_onlist_contents rest with
          | .error e => .error e
          | .ok toks => .ok (tok :: toks)

/-- C3 counterexample: on the stream with lines "" and "AAA" the tokenizer
raises `IndexError` instead of skipping the empty line and returning the
single token "AAA". -/
theorem yield_onlist_contents_blank_cex :
    yield_onlist_contents ["", "AAA"] = .error .indexError ∧
      yield_onlist_contents ["", "AAA"] ≠ .ok ["AAA"] := by
  have h : yield_onlist_contents ["", "AAA"] = .error .indexError := rfl
  refine ⟨h, ?_⟩
  rw [h]
  exact fun hh => Except.noConfusion hh

/-- C3 amended: a line that is empty after stripping is not skipped; it
makes `yield_onlist_contents` (and hence `read_list`) raise `IndexError`,
so the traversal produces no token list whenever any line of the stream is
empty after stripping. -/
theorem yield_onlist_contents_raises_on_blank_line (lines : List String)
    (l : String) (hmem : l ∈ lines) (hblank : pyTokens (pyStrip l) = []) :
    yield_onlist_contents lines = .error .indexError := by
  induction lines with
  | nil => cases hmem
  | cons a rest ih =>
      rw [yield_onlist_contents]
      rcases List.mem_cons.mp hmem with rfl | hmem
      · rw [hblank]
        rfl
      · cases htok : (pyTokens (pyStrip a)).head? with
        | none => rfl
        | some tok => rw [ih hmem]

theorem yield_onlist_contents_raises_on_blank_line_witness :
    yield_onlist_contents ["AAA", " "] = .error .indexError :=
  yield_onlist_contents_raises_on_blank_line ["AAA", " "] " " (by decide)
    (by decide)

theorem yield_onlist_contents_ok (lines : List String)
    (h : ∀ l ∈ lines, pyTokens (pyStrip l) ≠ []) :
    yield_onlist_contents lines =
      .ok (lines.map fun l => (pyTokens (pyStrip l)).headD "") := by
  induction lines with
  | nil => rfl
  | cons a rest ih =>
      rw [yield_onlist_contents]
      have ha : pyTokens (pyStrip a) ≠ [] := h a (List.mem_cons_self a rest)
      cases htok : (pyTokens (pyStrip a)).head? with
      | none => exact absurd (List.head?_eq_none_iff.mp htok) ha
      | some tok =>
          rw [ih fun l hl => h l (List.mem_cons_of_mem a hl)]
          simp [List.headD_eq_head?, htok]

/-- The `Onlist` record as constructed in the tests
(`Onlist(filename, md5, location)`) and consumed by `read_list` through
its `filename` and `location` attributes. -/
structure Onlist where
  filename : String
  md5 : Option String
  location : String

/-- A Python runtime value produced by tokenizing a stream: a `str` token
from a text-mode stream, or a `bytes` token from iterating a raw byte
stream.  The carried string is the token's character content (one byte
per character on the streams in scope); in Python a `bytes` value
compares unequal to every `str`, which the constructor tag records. -/
inductive PyData where
  | str (val : String)
  | bytes (val : String)
deriving DecidableEq

/-- A stored resource, identified by its logical content: either plain
text whose byte lines decode to `lines`, or a gzip container whose
decompressed text has `lines`.  Whether a reader of the resource sees
decoded `str` lines or raw `bytes` lines is decided branch by branch in
`read_list`, not here. -/
inductive Stored where
  | plain (lines : List String)
  | gzipped (lines : List String)

/-- Drain `yield_onlist_contents` over the lines of a text-mode stream
(`open(..., "rt")`, `gzip.open(..., "rt")`, `io.TextIOWrapper`): the
tokens are `str` values. -/
def yieldStrTokens (lines : List String) : Except Err (List PyData) :=
  match yield_onlist_contents lines with
  | .error e => .error e
  | .ok toks => .ok (toks.map PyData.str)

/-- Drain `yield_onlist_contents` over a raw byte stream (`response.raw`
iterated without any decoding): the lines arrive as `bytes`, and
`bytes.strip`/`bytes.split` act on the same ASCII whitespace over the
encoded characters, so the branch performs the same tokenization but its
tokens are `bytes` values. -/
def yieldBytesTokens (lines : List String) : Except Err (List PyData) :=
  match yield_onlist_contents lines with
  | .error e => .error e
  | .ok toks => .ok (toks.map PyData.bytes)

/-- An externally visible I/O action performed by the resolver: an HTTP
GET or a filesystem open. -/
inductive IOAct where
  | httpGet (url : String)
  | openFile (filename : String)
deriving DecidableEq

/-- The outside world the utilities touch: the local filesystem, the HTTP
GET transport used by `read_list`, and the HTTP HEAD transport used by
`file_exists`.  A GET returns a status code and a body; a HEAD returns a
status code; either can fail with a network error. -/
structure World where
  files : String → Option Stored
  http : String → Except NetFail (Nat × Stored)
  head : String → Except NetFail Nat

/-- Embedding of Python `str.endswith(pat)`: the characters of `pat` are
a suffix of the characters of `s`. -/
def pyEndswith (s pat : String) : Bool :=
  pat.data.isSuffixOf s.data

/-- Embedding of `read_list(onlist)`: branch on `location == "remote"`,
then `location == "local"` with a `.gz` filename, then `location ==
"local"`, else raise `ValueError`.  The remote branch GETs the URL and
calls `raise_for_status()` (an error for status codes 400-599); when the
URL ends in `.gz` it wraps the body in
`io.TextIOWrapper(gzip.GzipFile(...))`, producing decoded `str` lines,
but otherwise it iterates `response.raw` itself — a byte stream — so its
tokens are `bytes` values (utils.py line 63).  The local branches open
the file in text mode with `gzip.open` or `open`, producing `str` lines.
A stored container that does not match the reader (gzip reader on plain
bytes, or a text or raw-line reader on a gzip container) is modelled as a
decode failure; no claim exercises these mismatched cases.  The second
component records the I/O actions the call performed. -/
def read_list (w : World) (onlist : Onlist) :
    Except Err (List PyData) × List IOAct :=
  if onlist.location == "remote" then
    match w.http onlist.filename with
    | .error e => (.error (.transport e), [.httpGet onlist.filename])
    | .ok (status, body) =>
        if 400 ≤ status then
          (.error (.httpStatus status), [.httpGet onlist.filename])
        else if pyEndswith onlist.filename ".gz" then
          match body with
          | .gzipped lines =>
              (yieldStrTokens lines, [.httpGet onlist.filename])
          | .plain _ => (.error .decodeError, [.httpGet onlist.filename])
        else
          match body with
          | .plain lines =>
              (yieldBytesTokens lines, [.httpGet onlist.filename])
          | .gzipped _ => (.error .decodeError, [.httpGet onlist.filename])
  else if onlist.location == "local" && pyEndswith onlist.filename ".gz" then
    match w.files onlist.filename with
    | none => (.error (.fileNotFound onlist.filename),
               [.openFile onlist.filename])
    | some (.gzipped lines) =>
        (yieldStrTokens lines, [.openFile onlist.filename])
    | some (.plain _) => (.error .decodeError, [.openFile onlist.filename])
  else if onlist.location == "local" then
    match w.files onlist.filename with
    | none => (.error (.fileNotFound onlist.filename),
               [.openFile onlist.filename])
    | some (.plain lines) =>
        (yieldStrTokens lines, [.openFile onlist.filename])
    | some (.gzipped _) => (.error .decodeError, [.openFile onlist.filename])
  else
    (.error (.config onlist.location), [])

/-- Embedding of `file_exists(uri)`: HEAD the URI and compare the status
code to 200; a `requests.ConnectionError` is caught and turned into
`False`; any other exception propagates. -/
def file_exists (w : World) (uri : String) : Except Err Bool :=
  match w.head uri with
  | .ok status => .ok (status == 200)
  | .error .connError => .ok false
  | .error .otherError => .error (.transport .otherError)

/-- Embedding of `write_read(header, seq, qual, f)`: a single write of the
interpolated string with the sink modelled as the text written so far. -/
def write_read (header seq qual : String) (f : String) : String :=
  f ++ (header ++ "\n" ++ seq ++ "\n" ++ "+" ++ "\n" ++ qual ++ "\n")

/-! ## Resolver theorems -/

/-- A concrete world holding the token lines AAA, BBB behind four
resources: a plain and a gzipped local file, and a plain and a gzipped
remote URL. -/
def orthoWorld : World :=
  ⟨fun n =>
      if n = "lst.txt" then some (.plain ["AAA", "BBB"])
      else if n = "lst.txt.gz" then some (.gzipped ["AAA", "BBB"])
      else none,
   fun u =>
      if u = "http://h/lst.txt" then .ok (200, .plain ["AAA", "BBB"])
      else if u = "http://h/lst.txt.gz" then .ok (200, .gzipped ["AAA", "BBB"])
      else .error .connError,
   fun _ => .error .connError⟩

/-- C4 counterexample: for the identical logical content AAA, BBB, the
remote plain stream yields `bytes` tokens — `response.raw` is iterated
without decoding — while the local plain file yields `str` tokens, so the
two token lists are not identical. -/
theorem read_list_bytes_vs_str_cex :
    (read_list orthoWorld ⟨"http://h/lst.txt", none, "remote"⟩).fst ≠
      (read_list orthoWorld ⟨"lst.txt", none, "local"⟩).fst := by
  have h1 : (read_list orthoWorld ⟨"http://h/lst.txt", none, "remote"⟩).fst =
      .ok [PyData.bytes "AAA", PyData.bytes "BBB"] := rfl
  have h2 : (read_list orthoWorld ⟨"lst.txt", none, "local"⟩).fst =
      .ok [PyData.str "AAA", PyData.str "BBB"] := rfl
  rw [h1, h2]
  simp

/-- C4 amended: for identical logical content, the three text-mode
configurations — local plain file, local gzip file, remote gzip stream —
return the identical ordered `str` token list, while the remote plain
stream iterates `response.raw` without decoding and returns the same
token contents as `bytes` values, so its list differs element-wise from
the other three. -/
theorem read_list_transport_orthogonal
    (w : World) (L : List String) (fp fg up ug : String)
    (hfp : w.files fp = some (.plain L))
    (hfpgz : pyEndswith fp ".gz" = false)
    (hfg : w.files fg = some (.gzipped L))
    (hfggz : pyEndswith fg ".gz" = true)
    (hup : w.http up = .ok (200, .plain L))
    (hupgz : pyEndswith up ".gz" = false)
    (hug : w.http ug = .ok (200, .gzipped L))
    (huggz : pyEndswith ug ".gz" = true) :
    (((read_list w ⟨fp, none, "local"⟩).fst = yieldStrTokens L ∧
      (read_list w ⟨fg, none, "local"⟩).fst = yieldStrTokens L ∧
      (read_list w ⟨ug, none, "remote"⟩).fst = yieldStrTokens L) ∧
     (read_list w ⟨up, none, "remote"⟩).fst = yieldBytesTokens L) ∧
    ∀ toks, yield_onlist_contents L = .ok toks →
      yieldStrTokens L = .ok (toks.map PyData.str) ∧
        yieldBytesTokens L = .ok (toks.map PyData.bytes) := by
  refine ⟨⟨⟨?_, ?_, ?_⟩, ?_⟩, fun toks htoks => ?_⟩
  · simp [read_list, hfp, hfpgz]
  · simp [read_list, hfg, hfggz]
  · simp [read_list, hug, huggz]
  · simp [read_list, hup, hupgz]
  · simp [yieldStrTokens, yieldBytesTokens, htoks]

theorem read_list_transport_orthogonal_witness :
    (((read_list orthoWorld ⟨"lst.txt", none, "local"⟩).fst =
         yieldStrTokens ["AAA", "BBB"] ∧
      (read_list orthoWorld ⟨"lst.txt.gz", none, "local"⟩).fst =
         yieldStrTokens ["AAA", "BBB"] ∧
      (read_list orthoWorld ⟨"http://h/lst.txt.gz", none, "remote"⟩).fst =
         yieldStrTokens ["AAA", "BBB"]) ∧
     (read_list orthoWorld ⟨"http://h/lst.txt", none, "remote"⟩).fst =
         yieldBytesTokens ["AAA", "BBB"]) ∧
    (yieldStrTokens ["AAA", "BBB"] =
        .ok [PyData.str "AAA", PyData.str "BBB"] ∧
      yieldBytesTokens ["AAA", "BBB"] =
        .ok [PyData.bytes "AAA", PyData.bytes "BBB"]) :=
  ⟨(read_list_transport_orthogonal orthoWorld ["AAA", "BBB"]
      "lst.txt" "lst.txt.gz" "http://h/lst.txt" "http://h/lst.txt.gz"
      rfl (by decide) rfl (by decide) rfl (by decide) rfl (by decide)).1,
   (read_list_transport_orthogonal orthoWorld ["AAA", "BBB"]
      "lst.txt" "lst.txt.gz" "http://h/lst.txt" "http://h/lst.txt.gz"
      rfl (by decide) rfl (by decide) rfl (by decide) rfl (by decide)).2
     ["AAA", "BBB"] rfl⟩

/-- C5: `read_list` on an `Onlist` whose location is neither local nor
remote returns the `ValueError` naming the unsupported location in its
message and performs no I/O action at all, for every world. -/
theorem read_list_unsupported_location (w : World) (o : Onlist)
    (h1 : o.location ≠ "remote") (h2 : o.location ≠ "local") :
    read_list w o = (.error (.config o.location), []) ∧
      ∃ pre post,
        errMessage (.config o.location) = pre ++ o.location ++ post := by
  constructor
  · simp [read_list, h1, h2]
  · exact ⟨"Unsupported location ", ". Expected remote or local", rfl⟩

theorem read_list_unsupported_location_witness :
    read_list orthoWorld ⟨"barcodes.txt", none, "ftp"⟩ =
        (.error (.config "ftp"), []) ∧
      ∃ pre post, errMessage (.config "ftp") = pre ++ "ftp" ++ post :=
  read_list_unsupported_location orthoWorld ⟨"barcodes.txt", none, "ftp"⟩
    (by decide) (by decide)

/-- C6: on a local plain file none of whose lines is empty after
stripping, `read_list` returns one token per line — the first
whitespace-delimited token, as a `str` — in file order, with no
deduplication and no sorting (the result is a per-line map over the lines
in order). -/
theorem read_list_first_column (w : World) (o : Onlist) (lines : List String)
    (hloc : o.location = "local")
    (hgz : pyEndswith o.filename ".gz" = false)
    (hfile : w.files o.filename = some (.plain lines))
    (htok : ∀ l ∈ lines, pyTokens (pyStrip l) ≠ []) :
    (read_list w o).fst =
      .ok (lines.map fun l => PyData.str ((pyTokens (pyStrip l)).headD "")) := by
  have h := yield_onlist_contents_ok lines htok
  simp [read_list, hloc, hgz, hfile, yieldStrTokens, h, List.map_map,
    Function.comp]

/-- A concrete world holding a local two-column file with a duplicated
first token. -/
def dupWorld : World :=
  ⟨fun n =>
      if n = "bc.txt" then some (.plain ["AAA xx", "BBB", "AAA"]) else none,
   fun _ => .error .connError,
   fun _ => .error .connError⟩

theorem read_list_first_column_witness :
    (read_list dupWorld ⟨"bc.txt", none, "local"⟩).fst =
      .ok [PyData.str "AAA", PyData.str "BBB", PyData.str "AAA"] :=
  read_list_first_column dupWorld ⟨"bc.txt", none, "local"⟩
    ["AAA xx", "BBB", "AAA"] rfl (by decide) rfl (by decide)

/-! ## Read writer -/

/-- Worker for `textLines`: split a character list at each newline,
accumulating the current line in reverse. -/
def textLinesAux : List Char → List Char → List String
  | [], cur => [String.mk cur.reverse]
  | c :: cs, cur =>
      if c = '\n' then String.mk cur.reverse :: textLinesAux cs []
      else textLinesAux cs (c :: cur)

/-- Split a string on newline characters, as the test does with
`split(os.linesep)`: n newline characters give n + 1 fields, with a final
empty field when the text ends in a newline. -/
def textLines (s : String) : List String :=
  textLinesAux s.data []

theorem textLinesAux_append (xs rest cur : List Char)
    (hx : ∀ c ∈ xs, c ≠ '\n') :
    textLinesAux (xs ++ '\n' :: rest) cur =
      String.mk (cur.reverse ++ xs) :: textLinesAux rest [] := by
  induction xs generalizing cur with
  | nil => simp [textLinesAux]
  | cons a xs ih =>
      have ha : a ≠ '\n' := hx a (List.mem_cons_self a xs)
      rw [List.cons_append, textLinesAux, if_neg ha,
        ih _ fun c hc => hx c (List.mem_cons_of_mem a hc)]
      simp

/-- C8: `write_read` appends to the sink exactly the header, sequence,
literal "+" and quality, in that order, each terminated by a newline, with
no validation of the inputs; when the fields themselves contain no newline
the sink therefore holds exactly those four lines, and in particular for
header "@string", sequence "CANNTG", quality "IIIIII" — a length-mismatched
pair — the sink splits into exactly the lines "@string", "CANNTG", "+",
"IIIIII". -/
theorem write_read_four_lines :
    (∀ header seq qual f, write_read header seq qual f =
        f ++ (header ++ "\n" ++ seq ++ "\n" ++ "+" ++ "\n" ++ qual ++ "\n")) ∧
    (∀ header seq qual, (∀ c ∈ header.data, c ≠ '\n') →
        (∀ c ∈ seq.data, c ≠ '\n') → (∀ c ∈ qual.data, c ≠ '\n') →
        textLines (write_read header seq qual "") =
          [header, seq, "+", qual, ""]) ∧
    textLines (write_read "@string" "CANNTG" "IIIIII" "") =
      ["@string", "CANNTG", "+", "IIIIII", ""] := by
  refine ⟨fun header seq qual f => rfl, fun header seq qual hh hs hq => ?_,
    by decide⟩
  have hplus : ∀ c ∈ ['+'], c ≠ '\n' := by decide
  have hdata : (write_read header seq qual "").data =
      header.data ++ '\n' ::
        (seq.data ++ '\n' :: (['+'] ++ '\n' :: (qual.data ++ '\n' :: []))) := by
    simp [write_read, String.data_append]
  rw [textLines, hdata, textLinesAux_append _ _ _ hh,
    textLinesAux_append _ _ _ hs, textLinesAux_append _ _ _ hplus,
    textLinesAux_append _ _ _ hq]
  simp [textLinesAux]

theorem write_read_four_lines_witness :
    textLines (write_read "@read1" "ACGT" "III" "") =
      ["@read1", "ACGT", "+", "III", ""] :=
  write_read_four_lines.2.1 "@read1" "ACGT" "III" (by decide) (by decide)
    (by decide)

/-! ## Existence probe -/

/-- C9: a connection error during the HEAD existence probe makes
`file_exists` return false instead of raising, while `read_list`'s remote
transport path propagates the same connection error to the caller. -/
theorem file_exists_softens_connection_error (w : World) (uri : String)
    (o : Onlist) (hhead : w.head uri = .error .connError)
    (hloc : o.location = "remote")
    (hget : w.http o.filename = .error .connError) :
    file_exists w uri = .ok false ∧
      (read_list w o).fst = .error (.transport .connError) := by
  constructor
  · rw [file_exists, hhead]
  · simp [read_list, hloc, hget]

/-- A world in which every network primitive fails with a connection
error. -/
def downWorld : World :=
  ⟨fun _ => none, fun _ => .error .connError, fun _ => .error .connError⟩

theorem file_exists_softens_connection_error_witness :
    file_exists downWorld "http://h/x" = .ok false ∧
      (read_list downWorld ⟨"http://h/bc.txt", none, "remote"⟩).fst =
        .error (.transport .connError) :=
  file_exists_softens_connection_error downWorld "http://h/x"
    ⟨"http://h/bc.txt", none, "remote"⟩ rfl rfl rfl

/-- C10: when the HEAD request completes with status `s`, `file_exists`
returns `s == 200` without raising — true exactly for status 200, false
for every other status, including redirects such as 301 and client errors
such as 404. -/
theorem file_exists_true_iff_status_200 (w : World) (uri : String) (s : Nat)
    (h : w.head uri = .ok s) :
    file_exists w uri = .ok (s == 200) ∧
      (s ≠ 200 → file_exists w uri = .ok false) := by
  have h1 : file_exists w uri = .ok (s == 200) := by rw [file_exists, h]
  refine ⟨h1, fun hs => ?_⟩
  rw [h1]
  simp [hs]

/-- A world whose HEAD transport answers 200, 301 or 404 depending on the
URI. -/
def statusWorld : World :=
  ⟨fun _ => none, fun _ => .error .connError,
   fun u => if u = "u200" then .ok 200 else if u = "u301" then .ok 301
            else .ok 404⟩

theorem file_exists_true_iff_status_200_witness :
    file_exists statusWorld "u200" = .ok true ∧
      file_exists statusWorld "u301" = .ok false ∧
      file_exists statusWorld "u404" = .ok false :=
  ⟨(file_exists_true_iff_status_200 statusWorld "u200" 200 rfl).1,
   (file_exists_true_iff_status_200 statusWorld "u301" 301 rfl).2 (by decide),
   (file_exists_true_iff_status_200 statusWorld "u404" 404 rfl).2 (by decide)⟩

/-! ## Spec loading and the parent-id fix-up -/

mutual
/-- Modelled from the spec: `Region.set_parent_id(parent_id)` from
`seqspec/Region.py`, which is not under src/.  Following the spec, the
call stores the given parent id on the node and recursively stamps each
child with the owning node's `region_id`, reaching every node of an
arbitrarily deep tree. -/
def Region.set_parent_id : Region → Option String → Region
  | .node rid ml _ children, pid =>
      .node rid ml pid (setParentIds children rid)

/-- Companion of `Region.set_parent_id` on child lists: stamp every child
with the owning region's id. -/
def setParentIds : List Region → String → List Region
  | [], _ => []
  | c :: cs, rid => Region.set_parent_id c (some rid) :: setParentIds cs rid
end

/-- The `Assay` aggregate as far as `load_spec_stream` touches it: its
name and the top-level `library_spec` region list. -/
structure Assay where
  name : String
  library_spec : List Region

/-- Embedding of `load_spec_stream`: after the YAML layer yields the
`Assay` value, run `r.set_parent_id(None)` over every top-level region of
`library_spec`.  The argument is the parsed assay; the YAML parsing
itself is an external library and out of scope. -/
def load_spec_stream (a : Assay) : Assay :=
  ⟨a.name, a.library_spec.map fun r => r.set_parent_id none⟩

mutual
/-- Decides the parent-id invariant: the node's stored `parent_id` equals
the expected one, and every child's stored parent id equals this node's
`region_id`, recursively. -/
def parentsOkB (pid : Option String) : Region → Bool
  | .node rid _ p children => (p == pid) && parentsOkList rid children

/-- Companion of `parentsOkB` on child lists. -/
def parentsOkList (rid : String) : List Region → Bool
  | [] => true
  | c :: cs => parentsOkB (some rid) c && parentsOkList rid cs
end

mutual
theorem parentsOkB_set_parent_id :
    ∀ (r : Region) (pid : Option String),
      parentsOkB pid (r.set_parent_id pid) = true
  | .node rid ml p children, pid => by
      rw [Region.set_parent_id, parentsOkB,
        parentsOkList_setParentIds children rid]
      simp

theorem parentsOkList_setParentIds :
    ∀ (cs : List Region) (rid : String),
      parentsOkList rid (setParentIds cs rid) = true
  | [], rid => rfl
  | c :: cs, rid => by
      rw [setParentIds, parentsOkList, parentsOkB_set_parent_id c (some rid),
        parentsOkList_setParentIds cs rid]
      rfl
end

/-- C7: after `load_spec_stream`, every region reachable from a top-level
`library_spec` entry satisfies the parent-id invariant — each non-root
node's `parent_id` is its immediate parent's `region_id` and each
top-level root's `parent_id` is null — established by the explicit
post-load `set_parent_id` pass, for arbitrarily deep trees. -/
theorem load_spec_stream_parent_ids (a : Assay) :
    ∀ r ∈ (load_spec_stream a).library_spec, parentsOkB none r = true := by
  intro r hr
  obtain ⟨r0, _, rfl⟩ := List.mem_map.mp hr
  exact parentsOkB_set_parent_id r0 none

theorem load_spec_stream_parent_ids_witness :
    parentsOkB none
      (Region.node "root" 187 none
        [Region.node "mid" 90 (some "root")
          [Region.node "leaf" 6 (some "mid") []]]) = true :=
  load_spec_stream_parent_ids
    ⟨"my assay",
     [Region.node "root" 187 (some "stale")
       [Region.node "mid" 90 none [Region.node "leaf" 6 (some "wrong") []]]]⟩
    _ (List.mem_cons_self _ _)

end Seqspec
